import Mathlib

/-!
A verification development for skaffold's build-avoidance cache core
(`pkg/skaffold/build/cache/cache.go`) and the docker test double
(`testutil` fake API client).

The Go code is shallowly embedded: file-system effects are explicit state
passing over an `Env`, fallible operations return `Except`/`Option`, and the
external yaml.v2 library is modelled at its interface by a concrete
serializer/parser for the one schema the cache uses (a top-level mapping from
string keys to `ImageDetails` with `omitempty` string fields).  The model
serializer emits every scalar double-quoted (valid YAML; yaml.v2 quotes only
when needed), which keeps the round trip total over arbitrary strings.
-/

namespace Skaffold

/-- `ImageDetails` holds the Digest and ID of an image
(`cache.go`: both fields are `omitempty` strings). -/
structure ImageDetails where
  Digest : String
  ID : String
deriving DecidableEq, Repr

/-- `ArtifactCache` is a map of [artifact dependencies hash : ImageDetails].
A Go map is embedded as an association list; keys coming from a Go map are
unique, and the serializer below emits entries in list order (Go map order is
unspecified; yaml.v2 sorts, but only the mapping itself is observable). -/
def ArtifactCache := List (String × ImageDetails)
deriving DecidableEq

/-! ## The yaml.v2 boundary: a serializer and parser for the cache schema -/

/-- Escape one character for a double-quoted scalar. -/
def escChar (c : Char) : List Char :=
  if c = '\"' then ['\\', '\"']
  else if c = '\\' then ['\\', '\\']
  else if c = '\n' then ['\\', 'n']
  else [c]

/-- Escape a character list for a double-quoted scalar. -/
def escapeL : List Char → List Char
  | [] => []
  | c :: cs => escChar c ++ escapeL cs

/-- A double-quoted scalar: opening quote, escaped body, closing quote. -/
def quoteL (s : List Char) : List Char :=
  '\"' :: (escapeL s ++ ['\"'])

/-- Parse the body of a double-quoted scalar (the opening quote already
consumed); returns the unescaped content and the rest of the input. -/
def parseEsc : List Char → Option (List Char × List Char)
  | [] => none
  | c :: cs =>
    if c = '\"' then some ([], cs)
    else if c = '\\' then
      match cs with
      | [] => none
      | d :: ds =>
        match parseEsc ds with
        | none => none
        | some (v, r) => some ((if d = 'n' then '\n' else d) :: v, r)
    else
      match parseEsc cs with
      | none => none
      | some (v, r) => some (c :: v, r)

/-- Render a list of lines, each terminated by a newline. -/
def renderLines : List (List Char) → List Char
  | [] => []
  | l :: ls => l ++ '\n' :: renderLines ls

/-- Split a character stream into its lines (a trailing unterminated line is
kept; the empty stream has no lines). -/
def splitLines : List Char → List (List Char)
  | [] => []
  | c :: cs =>
    if c = '\n' then [] :: splitLines cs
    else
      match splitLines cs with
      | [] => [[c]]
      | l :: ls => (c :: l) :: ls

/-- The inline rendering of an empty `ImageDetails` object
(yaml.v2 renders a struct whose fields are all omitted as braces). -/
def emptyObjSuffix : List Char := [' ', Char.ofNat 123, Char.ofNat 125]

/-- The prefix of a serialized digest field line. -/
def digestFieldLead : List Char := [' ', ' ', 'd', 'i', 'g', 'e', 's', 't', ':', ' ']

/-- The prefix of a serialized id field line. -/
def idFieldLead : List Char := [' ', ' ', 'i', 'd', ':', ' ']

/-- The serialized lines of one cache entry: a key line, then one indented
line per non-empty (`omitempty`) field; an entry with no fields is rendered
inline as an empty object. -/
def entryLines (k : String) (d : ImageDetails) : List (List Char) :=
  if d.Digest = "" ∧ d.ID = "" then
    [quoteL k.data ++ ':' :: emptyObjSuffix]
  else
    (quoteL k.data ++ [':']) ::
      ((if d.Digest = "" then [] else [digestFieldLead ++ quoteL d.Digest.data]) ++
       (if d.ID = "" then [] else [idFieldLead ++ quoteL d.ID.data]))

/-- The serialized lines of a whole `ArtifactCache`, entry after entry. -/
def marshalLines : List (String × ImageDetails) → List (List Char)
  | [] => []
  | (k, d) :: m => entryLines k d ++ marshalLines m

/-- `yaml.Marshal` at the cache schema: the serialized cache file contents. -/
def marshalAC (m : ArtifactCache) : String :=
  ⟨renderLines (marshalLines m)⟩

/-- Parse a key line: a quoted key, a colon, and either nothing (fields
follow on indented lines) or an inline empty object.  The returned flag is
`true` for the inline empty object form. -/
def parseKeyLine (l : List Char) : Option (String × Bool) :=
  match l with
  | '\"' :: rest =>
    match parseEsc rest with
    | none => none
    | some (k, r) =>
      if r = [':'] then some (⟨k⟩, false)
      else if r = ':' :: emptyObjSuffix then some (⟨k⟩, true)
      else none
  | _ => none

/-- Strip a fixed prefix from a character list. -/
def dropPrefixL : List Char → List Char → Option (List Char)
  | [], l => some l
  | _ :: _, [] => none
  | p :: ps, c :: cs => if c = p then dropPrefixL ps cs else none

/-- Parse one field line into (is-digest-field, value). -/
def parseFieldLine (l : List Char) : Option (Bool × String) :=
  match dropPrefixL digestFieldLead l with
  | some rest =>
    match rest with
    | '\"' :: r =>
      match parseEsc r with
      | some (v, []) => some (true, ⟨v⟩)
      | _ => none
    | _ => none
  | none =>
    match dropPrefixL idFieldLead l with
    | some rest =>
      match rest with
      | '\"' :: r =>
        match parseEsc r with
        | some (v, []) => some (false, ⟨v⟩)
        | _ => none
      | _ => none
    | none => none

/-- A field line is indented by two spaces; a key line starts with a quote. -/
def isFieldLine : List Char → Bool
  | c1 :: c2 :: _ => c1 = ' ' && c2 = ' '
  | _ => false

/-- Take the leading run of field lines. -/
def takeFieldLines : List (List Char) → List (List Char) × List (List Char)
  | [] => ([], [])
  | l :: ls =>
    if isFieldLine l then
      let p := takeFieldLines ls
      (l :: p.1, p.2)
    else ([], l :: ls)

def parseFields : List (List Char) → ImageDetails → Option ImageDetails
  | [], d => some d
  | l :: ls, d =>
    match parseFieldLine l with
    | none => none
    | some (true, v) => parseFields ls { d with Digest := v }
    | some (false, v) => parseFields ls { d with ID := v }

/-- Parse a list of lines into cache entries.  The `Nat` argument is fuel
bounding the recursion depth; one unit per entry suffices, so callers pass
the line count (each entry spans at least one line). -/
def parseLinesAC : Nat → List (List Char) → Option (List (String × ImageDetails))
  | _, [] => some []
  | 0, _ :: _ => none
  | Nat.succ n, l :: ls =>
    match parseKeyLine l with
    | none => none
    | some (k, true) =>
      match parseLinesAC n ls with
      | none => none
      | some m => some ((k, ⟨"", ""⟩) :: m)
    | some (k, false) =>
      match parseFields (takeFieldLines ls).1 ⟨"", ""⟩ with
      | none => none
      | some d =>
        match parseLinesAC n (takeFieldLines ls).2 with
        | none => none
        | some m => some ((k, d) :: m)

/-- `yaml.Unmarshal` at the cache schema: parse cache file contents, `none`
on malformed input (an empty file parses to the empty mapping, as
`yaml.Unmarshal` of an empty document leaves the destination map untouched). -/
def parseAC (s : String) : Option ArtifactCache :=
  parseLinesAC (splitLines s.data).length (splitLines s.data)

/-! ## The environment: file system, home directory, docker client creation -/

/-- The ambient effects `cache.go` touches: a file system (path to contents),
per-path read/write permission (modelling `ioutil` I/O errors), the homedir
lookup (third-party `go-homedir`, which can fail), and the outcome of
`createDockerClient` (`docker.NewAPIClient`, which can fail). -/
structure Env where
  fs : String → Option String
  readable : String → Bool
  writable : String → Bool
  homedir : Option String
  dockerClient : Except String Unit

/-- `ioutil.ReadFile` at the `Env` boundary: a missing or unreadable file is
an error. -/
def ReadFile (env : Env) (path : String) : Except String String :=
  match env.fs path with
  | none => Except.error ("open " ++ path ++ ": no such file or directory")
  | some contents =>
    if env.readable path then Except.ok contents
    else Except.error ("open " ++ path ++ ": permission denied")

/-- `ioutil.WriteFile` at the `Env` boundary: creates or truncates the file,
replacing its contents wholesale; fails when the location is unwritable. -/
def WriteFile (env : Env) (path data : String) : Option String × Env :=
  if env.writable path then
    (none, { env with fs := fun q => if q = path then some data else env.fs q })
  else
    (some ("open " ++ path ++ ": permission denied"), env)

/-- Modelled from the spec: `util.VerifyOrCreateFile` (repository code not
under `src/`) ensures the file exists, creating it empty if missing, and
fails when a writable path cannot be produced.  An existing file is left
untouched. -/
def VerifyOrCreateFile (env : Env) (path : String) : Option String × Env :=
  match env.fs path with
  | some _ => (none, env)
  | none =>
    if env.writable path then
      (none, { env with fs := fun q => if q = path then some "" else env.fs q })
    else
      (some ("creating file " ++ path), env)

/-- Modelled from the spec: `constants.DefaultSkaffoldDir` (repository code
not under `src/`), the fixed per-tool configuration directory under home. -/
def DefaultSkaffoldDir : String := ".skaffold"

/-- Modelled from the spec: `constants.DefaultCacheFile` (repository code not
under `src/`), the fixed default cache file name. -/
def DefaultCacheFile : String := "cache"

/-- `filepath.Join` on three clean segments. -/
def filepathJoin (a b c : String) : String := a ++ "/" ++ b ++ "/" ++ c

/-! ## cache.go -/

/-- `SkaffoldOptions`, restricted to the fields `NewCache` reads. -/
structure SkaffoldOptions where
  CacheArtifacts : Bool
  CacheFile : String

/-- `RunContext`, restricted to the fields `NewCache` reads. -/
structure RunContext where
  Opts : SkaffoldOptions
  InsecureRegistries : List String

/-- The `Cache` interface value `NewCache` returns: either the `noCache`
null object or a `cache` struct holding the loaded mapping, the docker
client (absent when creation failed in remote mode), the insecure
registries, the backing file path and the `imagesAreLocal` flag.  The
stored `DependencyLister` capability is elided: it is an abstract interface
merely carried through construction. -/
inductive Cache where
  | noCache
  | cache (artifactCache : ArtifactCache) (client : Option Unit)
      (insecureRegistries : List String) (cacheFile : String)
      (imagesAreLocal : Bool)
deriving DecidableEq

instance {ε α : Type} [DecidableEq ε] [DecidableEq α] :
    DecidableEq (Except ε α) := fun a b =>
  match a, b with
  | Except.ok x, Except.ok y =>
    if h : x = y then Decidable.isTrue (by rw [h])
    else Decidable.isFalse (by simp [h])
  | Except.error x, Except.error y =>
    if h : x = y then Decidable.isTrue (by rw [h])
    else Decidable.isFalse (by simp [h])
  | Except.ok _, Except.error _ => Decidable.isFalse (by simp)
  | Except.error _, Except.ok _ => Decidable.isFalse (by simp)

/-- `resolveCacheFile` makes sure that either a passed in cache file or the
default cache file exists (`cache.go` lines 102–112). -/
def resolveCacheFile (env : Env) (cacheFile : String) :
    Except String String × Env :=
  if cacheFile ≠ "" then
    match VerifyOrCreateFile env cacheFile with
    | (none, env') => (Except.ok cacheFile, env')
    | (some e, env') => (Except.error e, env')
  else
    match env.homedir with
    | none => (Except.error "retrieving home directory", env)
    | some home =>
      match VerifyOrCreateFile env (filepathJoin home DefaultSkaffoldDir DefaultCacheFile) with
      | (none, env') =>
        (Except.ok (filepathJoin home DefaultSkaffoldDir DefaultCacheFile), env')
      | (some e, env') => (Except.error e, env')

/-- `retrieveArtifactCache` (`cache.go` lines 114–124): read the backing
file and unmarshal it into a fresh `ArtifactCache`. -/
def retrieveArtifactCache (env : Env) (cacheFile : String) :
    Except String ArtifactCache :=
  match ReadFile env cacheFile with
  | Except.error e => Except.error e
  | Except.ok contents =>
    match parseAC contents with
    | none => Except.error "yaml: unmarshal errors"
    | some c => Except.ok c

/-- `saveArtifactCache` (`cache.go` lines 126–133): marshal the whole
mapping and overwrite the file (`yaml.Marshal` cannot fail on this schema). -/
def saveArtifactCache (env : Env) (cacheFile : String) (contents : ArtifactCache) :
    Option String × Env :=
  WriteFile env cacheFile (marshalAC contents)

/-- `NewCache` (`cache.go` lines 65–95) returns the current state of the
cache: the no-op cache when caching is disabled or when the cache file
cannot be resolved or loaded; a fatal error when the docker client cannot
be created while `imagesAreLocal`; the real cache otherwise. -/
def NewCache (env : Env) (runCtx : RunContext) (imagesAreLocal : Bool) :
    Except String Cache × Env :=
  if !runCtx.Opts.CacheArtifacts then
    (Except.ok Cache.noCache, env)
  else
    match resolveCacheFile env runCtx.Opts.CacheFile with
    | (Except.error _, env') => (Except.ok Cache.noCache, env')
    | (Except.ok cacheFile, env') =>
      match retrieveArtifactCache env' cacheFile with
      | Except.error _ => (Except.ok Cache.noCache, env')
      | Except.ok artifactCache =>
        match env'.dockerClient with
        | Except.error e =>
          if imagesAreLocal then
            (Except.error ("getting local Docker client: " ++ e), env')
          else
            (Except.ok (Cache.cache artifactCache none runCtx.InsecureRegistries
              cacheFile imagesAreLocal), env')
        | Except.ok _ =>
          (Except.ok (Cache.cache artifactCache (some ()) runCtx.InsecureRegistries
            cacheFile imagesAreLocal), env')

/-- Modelled from the spec: the `noCache` implementation of the resolver
interface (repository code not under `src/`) always reports every artifact
as "must build", reports nothing as already built, and performs no file or
daemon I/O — the environment is returned unchanged, whatever it is. -/
def noCacheRetrieveCachedArtifacts (env : Env) (artifacts : List String) :
    (List String × List String) × Env :=
  ((artifacts, []), env)

/-! ## The testutil fake docker API client -/

/-- The docker client error distinction: `notFoundError` satisfies the
`NotFound()` predicate, an ordinary `fmt.Errorf` error does not. -/
inductive DockerError where
  | notFoundError
  | errorf (msg : String)
deriving DecidableEq

/-- The `NotFound()` predicate: only the dedicated not-found error type
reports `true`. -/
def DockerError.NotFound : DockerError → Bool
  | notFoundError => true
  | errorf _ => false

/-- A response body: either a reader that fails on read (`errReader`) or an
in-memory string reader. -/
inductive BodyStream where
  | errReader
  | reader (s : String)
deriving DecidableEq

/-- `types.ImageBuildOptions`, restricted to the field the fake reads. -/
structure ImageBuildOptions where
  Tags : List String
deriving DecidableEq

/-- `types.ImageInspect`, restricted to the fields the fake populates. -/
structure ImageInspect where
  ID : String
  RepoDigests : List String
deriving DecidableEq

/-- The `testutil.FakeAPIClient` state: the tag→image-id map (a Go map,
embedded as an association list with unique keys), the canned summaries and
digests, one independent failure flag per operation, and the recorded calls. -/
structure FakeAPIClient where
  TagToImageID : List (String × String)
  ImageSummaries : List String
  RepoDigests : List String
  ErrImageBuild : Bool
  ErrImageInspect : Bool
  ErrImageTag : Bool
  ErrImagePush : Bool
  ErrImagePull : Bool
  ErrStream : Bool
  nextImageID : Nat
  Tagged : List String
  Pushed : List String
  Built : List ImageBuildOptions
  PushedImages : List String
deriving DecidableEq

/-- Go map read `m[k]`: the binding of the first occurrence of `k`. -/
def lookupTag (m : List (String × String)) (k : String) : Option String :=
  match m with
  | [] => none
  | (t, i) :: rest => if t = k then some i else lookupTag rest k

/-- Go map write `m[k] = v`: replace the binding of `k`, or append it. -/
def insertTag (m : List (String × String)) (k v : String) :
    List (String × String) :=
  match m with
  | [] => [(k, v)]
  | (t, i) :: rest => if t = k then (k, v) :: rest else (t, i) :: insertTag rest k v

/-- The range loop of `ImageInspectWithRaw`: the image id of the first entry
whose tag or image id equals `ref`. -/
def findInspect (m : List (String × String)) (ref : String) : Option String :=
  match m with
  | [] => none
  | (tag, imageID) :: rest =>
    if tag = ref ∨ imageID = ref then some imageID else findInspect rest ref

/-- `FakeAPIClient.body`: the build/push/pull response stream. -/
def FakeAPIClient.body (f : FakeAPIClient) (digest : String) : BodyStream :=
  if f.ErrStream then BodyStream.errReader
  else BodyStream.reader ("\x7b\"aux\":\x7b\"digest\":\"" ++ digest ++ "\"\x7d\x7d")

/-- `FakeAPIClient.ImageBuild`: fails iff `ErrImageBuild`; otherwise mints
the next image id, registers it and every requested tag (adding `:latest`
to tags without one), records the options, and returns the body stream. -/
def FakeAPIClient.ImageBuild (f : FakeAPIClient) (options : ImageBuildOptions) :
    Except DockerError (BodyStream × FakeAPIClient) :=
  if f.ErrImageBuild then Except.error (DockerError.errorf "")
  else
    let nextID := f.nextImageID + 1
    let imageID := "sha256:" ++ toString nextID
    let m0 := insertTag f.TagToImageID imageID imageID
    let m1 := options.Tags.foldl (fun m tag =>
      let m' := insertTag m tag imageID
      if tag.contains ':' then m' else insertTag m' (tag ++ ":latest") imageID) m0
    let f' := { f with nextImageID := nextID, TagToImageID := m1,
                       Built := f.Built ++ [options] }
    Except.ok (f'.body imageID, f')

/-- `FakeAPIClient.ImageInspectWithRaw`: fails with an ordinary error iff
`ErrImageInspect`; resolves a tag or image id to its image id plus raw
config, or fails with the dedicated not-found error. -/
def FakeAPIClient.ImageInspectWithRaw (f : FakeAPIClient) (ref : String) :
    Except DockerError (ImageInspect × String) :=
  if f.ErrImageInspect then Except.error (DockerError.errorf "")
  else
    match findInspect f.TagToImageID ref with
    | some imageID =>
      Except.ok ({ ID := imageID, RepoDigests := f.RepoDigests },
        "\x7b\"Config\":\x7b\"Image\":\"" ++ imageID ++ "\"\x7d\x7d")
    | none => Except.error DockerError.notFoundError

/-- `FakeAPIClient.ImageTag`: fails iff `ErrImageTag` or the source image is
unknown; otherwise points `ref` at the source's image id and records it. -/
def FakeAPIClient.ImageTag (f : FakeAPIClient) (image ref : String) :
    Except DockerError FakeAPIClient :=
  if f.ErrImageTag then Except.error (DockerError.errorf "")
  else
    match lookupTag f.TagToImageID image with
    | none => Except.error (DockerError.errorf ("image " ++ image ++ " not found."))
    | some imageID =>
      Except.ok { f with TagToImageID := insertTag f.TagToImageID ref imageID,
                         Tagged := f.Tagged ++ [ref] }

/-- Modelled from the external `crypto/sha256` boundary: a deterministic
digest function of the input string; nothing here depends on concrete
digest values, only on determinism. -/
def sha256Hex (s : String) : String :=
  (Nat.toDigits 16 (s.data.foldl (fun a c => (a * 131 + c.toNat) % (2 ^ 64)) 7)).asString

/-- `FakeAPIClient.ImagePush`: fails iff `ErrImagePush`; otherwise records a
digest of the pushed image id (the missing-key map read yields `""`) and
returns the body stream. -/
def FakeAPIClient.ImagePush (f : FakeAPIClient) (ref : String) :
    Except DockerError (BodyStream × FakeAPIClient) :=
  if f.ErrImagePush then Except.error (DockerError.errorf "")
  else
    let digest := "sha256:" ++ sha256Hex ((lookupTag f.TagToImageID ref).getD "")
    let f' := { f with Pushed := f.Pushed ++ [digest],
                       PushedImages := f.PushedImages ++ [ref] }
    Except.ok (f'.body digest, f')

/-- `FakeAPIClient.ImagePull`: fails iff `ErrImagePull`. -/
def FakeAPIClient.ImagePull (f : FakeAPIClient) (_ref : String) :
    Except DockerError BodyStream :=
  if f.ErrImagePull then Except.error (DockerError.errorf "")
  else Except.ok (f.body "")

/-- `registry.IndexServer`, the default registry index address. -/
def IndexServer : String := "https://index.docker.io/v1/"

/-- `FakeAPIClient.Info`: always reports the default index server. -/
def FakeAPIClient.Info (_ : FakeAPIClient) : String := IndexServer

/-- `FakeAPIClient.ImageList`: returns the canned summaries. -/
def FakeAPIClient.ImageList (f : FakeAPIClient) : List String := f.ImageSummaries

/-- The five independently-failing daemon operations of the test double. -/
inductive DockerOp where
  | build
  | inspect
  | tag
  | push
  | pull
deriving DecidableEq

/-- Set exactly the failure flag of one operation. -/
def setErrFlag (o : DockerOp) (f : FakeAPIClient) : FakeAPIClient :=
  match o with
  | DockerOp.build => { f with ErrImageBuild := true }
  | DockerOp.inspect => { f with ErrImageInspect := true }
  | DockerOp.tag => { f with ErrImageTag := true }
  | DockerOp.push => { f with ErrImagePush := true }
  | DockerOp.pull => { f with ErrImagePull := true }

/-- Whether an `Except` result is a success. -/
def exceptOk {ε α : Type} : Except ε α → Bool
  | Except.ok _ => true
  | Except.error _ => false

/-- Whether one daemon operation, run on the given client state with the
given arguments, succeeds. -/
def opSucceeds (o : DockerOp) (f : FakeAPIClient) (options : ImageBuildOptions)
    (ref target : String) : Bool :=
  match o with
  | DockerOp.build => exceptOk (f.ImageBuild options)
  | DockerOp.inspect => exceptOk (f.ImageInspectWithRaw ref)
  | DockerOp.tag => exceptOk (f.ImageTag ref target)
  | DockerOp.push => exceptOk (f.ImagePush ref)
  | DockerOp.pull => exceptOk (f.ImagePull ref)

/-! ## Concrete fixtures for witnesses and counterexamples -/

/-- An environment with an empty, fully accessible file system and a failing
docker daemon connection. -/
def envClientDown : Env :=
  { fs := fun _ => none
    readable := fun _ => true
    writable := fun _ => true
    homedir := some "/home/user"
    dockerClient := Except.error "daemon unreachable" }

/-- An environment with an empty, fully accessible file system and a working
docker daemon connection. -/
def envHealthy : Env :=
  { fs := fun _ => none
    readable := fun _ => true
    writable := fun _ => true
    homedir := some "/home/user"
    dockerClient := Except.ok () }

/-- An environment whose file system rejects every write. -/
def envReadOnly : Env :=
  { fs := fun _ => none
    readable := fun _ => true
    writable := fun _ => false
    homedir := some "/home/user"
    dockerClient := Except.ok () }

/-- A run context with caching enabled and an explicit cache file. -/
def runCtxCaching : RunContext :=
  { Opts := { CacheArtifacts := true, CacheFile := "skaffold-cache" }
    InsecureRegistries := [] }

/-- A run context with caching administratively disabled. -/
def runCtxDisabled : RunContext :=
  { Opts := { CacheArtifacts := false, CacheFile := "" }
    InsecureRegistries := [] }

/-- A fake client with no images and no failure flags set. -/
def fakeEmpty : FakeAPIClient :=
  { TagToImageID := []
    ImageSummaries := []
    RepoDigests := []
    ErrImageBuild := false
    ErrImageInspect := false
    ErrImageTag := false
    ErrImagePush := false
    ErrImagePull := false
    ErrStream := false
    nextImageID := 0
    Tagged := []
    Pushed := []
    Built := []
    PushedImages := [] }

/-- A fake client knowing a single tagged image, with no failure flags set. -/
def fakeOneImage : FakeAPIClient :=
  { fakeEmpty with TagToImageID := [("img:1", "sha256:1")] }


/-! ## Lemmas -/

/-! ## Round-trip lemmas for the yaml boundary -/

theorem mk_data_eq (s : String) : String.mk s.data = s := rfl

theorem parseEsc_escape (s r : List Char) :
    parseEsc (escapeL s ++ '\"' :: r) = some (s, r) := by
  induction s with
  | nil =>
    rw [escapeL, List.nil_append, parseEsc.eq_def]
    simp
  | cons c cs ih =>
    by_cases h1 : c = '\"'
    · subst h1
      simp only [escapeL, escChar, if_pos rfl, List.cons_append, List.nil_append]
      rw [parseEsc.eq_def]
      simp [ih]
    · by_cases h2 : c = '\\'
      · subst h2
        simp only [escapeL, escChar, if_neg (by decide : ¬('\\' : Char) = '\"'),
          if_pos rfl, List.cons_append, List.nil_append]
        rw [parseEsc.eq_def]
        simp [ih]
      · by_cases h3 : c = '\n'
        · subst h3
          simp only [escapeL, escChar, if_neg (by decide : ¬('\n' : Char) = '\"'),
            if_neg (by decide : ¬('\n' : Char) = '\\'), if_pos rfl,
            List.cons_append, List.nil_append]
          rw [parseEsc.eq_def]
          simp [ih]
        · simp only [escapeL, escChar, if_neg h1, if_neg h2, if_neg h3,
            List.cons_append, List.nil_append]
          rw [parseEsc.eq_def]
          simp [h1, h2, ih]

theorem nl_not_mem_escapeL (s : List Char) : '\n' ∉ escapeL s := by
  induction s with
  | nil => simp [escapeL]
  | cons c cs ih =>
    simp only [escapeL, List.mem_append]
    rintro (hc | hc)
    · by_cases h1 : c = '\"'
      · subst h1; exact absurd hc (by decide)
      · by_cases h2 : c = '\\'
        · subst h2; exact absurd hc (by decide)
        · by_cases h3 : c = '\n'
          · subst h3; exact absurd hc (by decide)
          · rw [escChar, if_neg h1, if_neg h2, if_neg h3] at hc
            exact h3 (List.mem_singleton.mp hc).symm
    · exact ih hc

theorem nl_not_mem_quoteL (s : List Char) : '\n' ∉ quoteL s := by
  simp only [quoteL, List.mem_cons, List.mem_append, List.mem_singleton]
  rintro (h | h | h)
  · exact absurd h.symm (by decide)
  · exact nl_not_mem_escapeL s h
  · exact absurd h (by decide)

theorem splitLines_append (l rest : List Char) (h : '\n' ∉ l) :
    splitLines (l ++ '\n' :: rest) = l :: splitLines rest := by
  induction l with
  | nil => simp [splitLines]
  | cons c cs ih =>
    have hc : c ≠ '\n' := fun hh => h (hh ▸ List.mem_cons_self c cs)
    have hcs : '\n' ∉ cs := fun hh => h (List.mem_cons_of_mem _ hh)
    simp [splitLines, hc, ih hcs]

theorem splitLines_renderLines (ls : List (List Char)) (h : ∀ l ∈ ls, '\n' ∉ l) :
    splitLines (renderLines ls) = ls := by
  induction ls with
  | nil => simp [renderLines, splitLines]
  | cons l ls ih =>
    simp only [renderLines]
    rw [splitLines_append l _ (h l (List.mem_cons_self l ls)),
      ih fun x hx => h x (List.mem_cons_of_mem _ hx)]

theorem parseKeyLine_block (k : String) :
    parseKeyLine (quoteL k.data ++ [':']) = some (k, false) := by
  simp [quoteL, parseKeyLine, List.append_assoc, parseEsc_escape, mk_data_eq]

theorem parseKeyLine_inline (k : String) :
    parseKeyLine (quoteL k.data ++ ':' :: emptyObjSuffix) = some (k, true) := by
  have hne : ':' :: emptyObjSuffix ≠ [':'] := by decide
  simp [quoteL, parseKeyLine, List.append_assoc, parseEsc_escape, mk_data_eq, hne]

theorem dropPrefixL_append (p r : List Char) : dropPrefixL p (p ++ r) = some r := by
  induction p with
  | nil => simp [dropPrefixL]
  | cons c cs ih => simp [dropPrefixL, ih]

theorem parseFieldLine_digest (v : String) :
    parseFieldLine (digestFieldLead ++ quoteL v.data) = some (true, v) := by
  have h1 : parseEsc (escapeL v.data ++ ['\"']) = some (v.data, []) := by
    simpa using parseEsc_escape v.data []
  simp only [parseFieldLine]
  rw [dropPrefixL_append]
  simp [quoteL, h1, mk_data_eq]

theorem parseFieldLine_id (v : String) :
    parseFieldLine (idFieldLead ++ quoteL v.data) = some (false, v) := by
  have hne : ('i' : Char) ≠ 'd' := by decide
  have hdrop : dropPrefixL digestFieldLead (idFieldLead ++ quoteL v.data) = none := by
    simp [digestFieldLead, idFieldLead, dropPrefixL, hne]
  have h1 : parseEsc (escapeL v.data ++ ['\"']) = some (v.data, []) := by
    simpa using parseEsc_escape v.data []
  simp only [parseFieldLine, hdrop]
  rw [dropPrefixL_append]
  simp [quoteL, h1, mk_data_eq]

theorem isFieldLine_quote (rest : List Char) : isFieldLine ('\"' :: rest) = false := by
  cases rest <;> simp [isFieldLine]

theorem isFieldLine_digest (rest : List Char) :
    isFieldLine (digestFieldLead ++ rest) = true := by
  simp [digestFieldLead, isFieldLine]

theorem isFieldLine_id (rest : List Char) :
    isFieldLine (idFieldLead ++ rest) = true := by
  simp [idFieldLead, isFieldLine]

theorem takeFieldLines_append (fl rest : List (List Char))
    (hfl : ∀ l ∈ fl, isFieldLine l = true)
    (hrest : rest = [] ∨ ∃ r rs, rest = r :: rs ∧ isFieldLine r = false) :
    takeFieldLines (fl ++ rest) = (fl, rest) := by
  induction fl with
  | nil =>
    rcases hrest with h | ⟨r, rs, hr, hfalse⟩
    · simp [h, takeFieldLines]
    · simp [hr, takeFieldLines, hfalse]
  | cons l fl ih =>
    have hl := hfl l (List.mem_cons_self l fl)
    have hrec := ih fun x hx => hfl x (List.mem_cons_of_mem _ hx)
    simp [takeFieldLines, hl, hrec]

theorem marshalLines_keyfront (m : List (String × ImageDetails)) :
    marshalLines m = [] ∨
      ∃ r rs, marshalLines m = r :: rs ∧ isFieldLine r = false := by
  cases m with
  | nil => exact Or.inl rfl
  | cons e m =>
    obtain ⟨k, d⟩ := e
    right
    by_cases h : d.Digest = "" ∧ d.ID = ""
    · refine ⟨quoteL k.data ++ ':' :: emptyObjSuffix, marshalLines m, ?_, ?_⟩
      · simp [marshalLines, entryLines, h]
      · simp only [quoteL, List.cons_append]
        exact isFieldLine_quote _
    · refine ⟨quoteL k.data ++ [':'],
        ((if d.Digest = "" then [] else [digestFieldLead ++ quoteL d.Digest.data]) ++
         (if d.ID = "" then [] else [idFieldLead ++ quoteL d.ID.data])) ++ marshalLines m,
        ?_, ?_⟩
      · simp [marshalLines, entryLines, h]
      · simp only [quoteL, List.cons_append]
        exact isFieldLine_quote _

theorem parseFields_round (d : ImageDetails) :
    parseFields
      ((if d.Digest = "" then [] else [digestFieldLead ++ quoteL d.Digest.data]) ++
       (if d.ID = "" then [] else [idFieldLead ++ quoteL d.ID.data]))
      ⟨"", ""⟩ = some d := by
  obtain ⟨dg, di⟩ := d
  by_cases h1 : dg = "" <;> by_cases h2 : di = "" <;>
    simp [h1, h2, parseFields, parseFieldLine_digest, parseFieldLine_id]

theorem entryLines_no_nl (k : String) (d : ImageDetails) :
    ∀ l ∈ entryLines k d, '\n' ∉ l := by
  intro l hl
  have hq := nl_not_mem_quoteL k.data
  by_cases h : d.Digest = "" ∧ d.ID = ""
  · rw [entryLines, if_pos h] at hl
    rcases List.mem_singleton.mp hl with rfl
    intro hmem
    rcases List.mem_append.mp hmem with hmem | hmem
    · exact hq hmem
    · exact absurd hmem (by decide)
  · rw [entryLines, if_neg h] at hl
    rcases List.mem_cons.mp hl with rfl | hl
    · intro hmem
      rcases List.mem_append.mp hmem with hmem | hmem
      · exact hq hmem
      · exact absurd hmem (by decide)
    · rcases List.mem_append.mp hl with hl | hl
      · by_cases hd : d.Digest = ""
        · rw [if_pos hd] at hl; exact absurd hl (List.not_mem_nil l)
        · rw [if_neg hd] at hl
          rcases List.mem_singleton.mp hl with rfl
          intro hmem
          rcases List.mem_append.mp hmem with hmem | hmem
          · exact absurd hmem (by decide)
          · exact nl_not_mem_quoteL _ hmem
      · by_cases hi : d.ID = ""
        · rw [if_pos hi] at hl; exact absurd hl (List.not_mem_nil l)
        · rw [if_neg hi] at hl
          rcases List.mem_singleton.mp hl with rfl
          intro hmem
          rcases List.mem_append.mp hmem with hmem | hmem
          · exact absurd hmem (by decide)
          · exact nl_not_mem_quoteL _ hmem

theorem marshalLines_no_nl (m : List (String × ImageDetails)) :
    ∀ l ∈ marshalLines m, '\n' ∉ l := by
  induction m with
  | nil => intro l hl; exact absurd hl (List.not_mem_nil l)
  | cons e m ih =>
    obtain ⟨k, d⟩ := e
    intro l hl
    rcases List.mem_append.mp hl with hl | hl
    · exact entryLines_no_nl k d l hl
    · exact ih l hl

theorem parseLinesAC_marshal (m : List (String × ImageDetails)) :
    ∀ fuel, (marshalLines m).length ≤ fuel →
      parseLinesAC fuel (marshalLines m) = some m := by
  induction m with
  | nil =>
    intro fuel _
    rw [marshalLines]
    cases fuel <;> rfl
  | cons e m ih =>
    intro fuel hfuel
    obtain ⟨k, d⟩ := e
    by_cases h : d.Digest = "" ∧ d.ID = ""
    · have hd : d = ⟨"", ""⟩ := by
        obtain ⟨h1, h2⟩ := h
        cases d
        simp_all
      rw [marshalLines, entryLines, if_pos h, List.singleton_append] at hfuel ⊢
      cases fuel with
      | zero =>
        simp only [List.length_cons] at hfuel
        omega
      | succ n =>
        have hn : (marshalLines m).length ≤ n := by
          simp only [List.length_cons] at hfuel
          omega
        rw [parseLinesAC, parseKeyLine_inline, ih n hn, hd]
    · have hfl : ∀ l ∈ (if d.Digest = "" then [] else
          [digestFieldLead ++ quoteL d.Digest.data]) ++
          (if d.ID = "" then [] else [idFieldLead ++ quoteL d.ID.data]),
          isFieldLine l = true := by
        intro l hl
        rcases List.mem_append.mp hl with hl | hl
        · by_cases hd : d.Digest = ""
          · rw [if_pos hd] at hl; exact absurd hl (List.not_mem_nil l)
          · rw [if_neg hd] at hl
            rcases List.mem_singleton.mp hl with rfl
            exact isFieldLine_digest _
        · by_cases hi : d.ID = ""
          · rw [if_pos hi] at hl; exact absurd hl (List.not_mem_nil l)
          · rw [if_neg hi] at hl
            rcases List.mem_singleton.mp hl with rfl
            exact isFieldLine_id _
      have htake := takeFieldLines_append _ (marshalLines m) hfl
        (marshalLines_keyfront m)
      rw [List.append_assoc] at htake
      rw [marshalLines, entryLines, if_neg h, List.cons_append,
        List.append_assoc] at hfuel ⊢
      cases fuel with
      | zero =>
        simp only [List.length_cons] at hfuel
        omega
      | succ n =>
        have hn : (marshalLines m).length ≤ n := by
          simp only [List.length_cons, List.length_append] at hfuel
          omega
        rw [parseLinesAC, parseKeyLine_block, htake, parseFields_round, ih n hn]

/-- `Save` followed by `Load` at the yaml boundary: parsing the serialized
form of any `ArtifactCache` recovers exactly the same entries. -/
theorem parseAC_marshalAC (m : ArtifactCache) : parseAC (marshalAC m) = some m := by
  show parseLinesAC (splitLines (String.data ⟨renderLines (marshalLines m)⟩)).length
    (splitLines (String.data ⟨renderLines (marshalLines m)⟩)) = some m
  rw [show (String.data ⟨renderLines (marshalLines m)⟩) =
      renderLines (marshalLines m) from rfl,
    splitLines_renderLines _ (marshalLines_no_nl m)]
  exact parseLinesAC_marshal m _ (Nat.le_refl _)

/-! ## Map lemmas for the fake client -/

theorem lookupTag_insertTag_self (m : List (String × String)) (k v : String) :
    lookupTag (insertTag m k v) k = some v := by
  induction m with
  | nil => simp [insertTag, lookupTag]
  | cons p rest ih =>
    obtain ⟨t, i⟩ := p
    by_cases h : t = k
    · simp [insertTag, h, lookupTag]
    · simp [insertTag, h, lookupTag, ih]

theorem lookupTag_insertTag_ne (m : List (String × String)) (k v k' : String)
    (h : k' ≠ k) : lookupTag (insertTag m k v) k' = lookupTag m k' := by
  induction m with
  | nil => simp [insertTag, lookupTag, Ne.symm h]
  | cons p rest ih =>
    obtain ⟨t, i⟩ := p
    by_cases ht : t = k
    · subst ht
      simp [insertTag, lookupTag, Ne.symm h]
    · by_cases ht' : t = k'
      · subst ht'
        simp [insertTag, ht, lookupTag]
      · simp [insertTag, ht, lookupTag, ht', ih]

theorem findInspect_of_lookupTag (m : List (String × String)) (ref i : String)
    (h : lookupTag m ref = some i) : ∃ j, findInspect m ref = some j := by
  induction m with
  | nil => simp [lookupTag] at h
  | cons p rest ih =>
    obtain ⟨t, id⟩ := p
    by_cases ht : t = ref
    · exact ⟨id, by simp [findInspect, ht]⟩
    · rw [lookupTag, if_neg ht] at h
      by_cases hid : id = ref
      · exact ⟨id, by simp [findInspect, hid]⟩
      · obtain ⟨j, hj⟩ := ih h
        exact ⟨j, by simp [findInspect, ht, hid, hj]⟩

theorem findInspect_none (m : List (String × String)) (ref : String)
    (h : ∀ p ∈ m, p.1 ≠ ref ∧ p.2 ≠ ref) : findInspect m ref = none := by
  induction m with
  | nil => rfl
  | cons p rest ih =>
    obtain ⟨t, id⟩ := p
    have hp := h (t, id) (List.mem_cons_self _ _)
    rw [findInspect, if_neg]
    · exact ih fun q hq => h q (List.mem_cons_of_mem _ hq)
    · rintro (hh | hh)
      · exact hp.1 hh
      · exact hp.2 hh

theorem parseFieldLine_keyline (r : List Char) :
    parseFieldLine ('\"' :: r) = none := by
  have hq : ¬('\"' : Char) = ' ' := by decide
  have h1 : dropPrefixL digestFieldLead ('\"' :: r) = none := by
    simp [digestFieldLead, dropPrefixL, hq]
  have h2 : dropPrefixL idFieldLead ('\"' :: r) = none := by
    simp [idFieldLead, dropPrefixL, hq]
  simp [parseFieldLine, h1, h2]

/-! ## Claim C1 -/

/-- Claim C1 (counterexample): caching is enabled, the cache file resolves
and loads, docker client creation fails, and `imagesAreLocal` is true —
`NewCache` returns a fatal wrapped error, not the no-op cache, so
construction IS fatal in exactly the case the claim says it never is. -/
theorem newCache_clientFailure_cex :
    (NewCache envClientDown runCtxCaching true).1 =
      Except.error "getting local Docker client: daemon unreachable" ∧
    (NewCache envClientDown runCtxCaching true).1 ≠ Except.ok Cache.noCache := by
  constructor
  · rfl
  · decide

/-- Claim C1 (amended): when construction reaches the docker-client step
(caching on, cache file resolved, mapping loaded) and client creation
fails, `NewCache` with `imagesAreLocal = true` returns the wrapped error —
a fatal outcome — and only with `imagesAreLocal = false` does it tolerate
the failure, returning the real cache without a client. -/
theorem newCache_clientFailure (env env' : Env) (runCtx : RunContext)
    (cf e : String) (ac : ArtifactCache)
    (hca : runCtx.Opts.CacheArtifacts = true)
    (hres : resolveCacheFile env runCtx.Opts.CacheFile = (Except.ok cf, env'))
    (hret : retrieveArtifactCache env' cf = Except.ok ac)
    (hcli : env'.dockerClient = Except.error e) :
    NewCache env runCtx true =
      (Except.error ("getting local Docker client: " ++ e), env') ∧
    NewCache env runCtx false =
      (Except.ok (Cache.cache ac none runCtx.InsecureRegistries cf false), env') := by
  constructor <;> simp [NewCache, hca, hres, hret, hcli]

/-- Claim C1 (amended, witness): the amended behaviour at the concrete
failing environment. -/
theorem newCache_clientFailure_witness :
    runCtxCaching.Opts.CacheArtifacts = true ∧
    NewCache envClientDown runCtxCaching true =
      (Except.error "getting local Docker client: daemon unreachable",
        (resolveCacheFile envClientDown "skaffold-cache").2) :=
  ⟨rfl,
    (newCache_clientFailure envClientDown
      (resolveCacheFile envClientDown "skaffold-cache").2 runCtxCaching
      "skaffold-cache" "daemon unreachable" [] rfl rfl (by decide) rfl).1⟩

/-! ## Claim C2 -/

/-- Claim C2: with caching enabled, a failing `resolveCacheFile` or a
failing `retrieveArtifactCache` makes `NewCache` return the no-op cache
with no error; and `retrieveArtifactCache` fails whenever the cache file is
missing, unreadable, or has malformed (unparsable) contents. -/
theorem newCache_degrades_to_noCache (env : Env) (runCtx : RunContext)
    (ial : Bool) (hca : runCtx.Opts.CacheArtifacts = true) :
    (∀ e env', resolveCacheFile env runCtx.Opts.CacheFile = (Except.error e, env') →
      NewCache env runCtx ial = (Except.ok Cache.noCache, env')) ∧
    (∀ cf env' e, resolveCacheFile env runCtx.Opts.CacheFile = (Except.ok cf, env') →
      retrieveArtifactCache env' cf = Except.error e →
      NewCache env runCtx ial = (Except.ok Cache.noCache, env')) ∧
    (∀ (envr : Env) cf, envr.fs cf = none →
      ∃ e, retrieveArtifactCache envr cf = Except.error e) ∧
    (∀ (envr : Env) cf c, envr.fs cf = some c → envr.readable cf = false →
      ∃ e, retrieveArtifactCache envr cf = Except.error e) ∧
    (∀ (envr : Env) cf c, envr.fs cf = some c → parseAC c = none →
      ∃ e, retrieveArtifactCache envr cf = Except.error e) := by
  refine ⟨?_, ?_, ?_, ?_, ?_⟩
  · intro e env' hres
    simp [NewCache, hca, hres]
  · intro cf env' e hres hret
    simp [NewCache, hca, hres, hret]
  · intro envr cf hfs
    exact ⟨"open " ++ cf ++ ": no such file or directory",
      by simp [retrieveArtifactCache, ReadFile, hfs]⟩
  · intro envr cf c hfs hrd
    exact ⟨"open " ++ cf ++ ": permission denied",
      by simp [retrieveArtifactCache, ReadFile, hfs, hrd]⟩
  · intro envr cf c hfs hparse
    by_cases hrd : envr.readable cf = true
    · exact ⟨"yaml: unmarshal errors",
        by simp [retrieveArtifactCache, ReadFile, hfs, hrd, hparse]⟩
    · exact ⟨"open " ++ cf ++ ": permission denied", by
        simp [retrieveArtifactCache, ReadFile, hfs,
          Bool.eq_false_iff.mpr (fun h => hrd h)]⟩

/-- Claim C2 (witness): a read-only file system makes `resolveCacheFile`
fail and `NewCache` hands back the no-op cache without an error; and each
of the three failure modes of `retrieveArtifactCache` at concrete inputs. -/
theorem newCache_degrades_to_noCache_witness :
    runCtxCaching.Opts.CacheArtifacts = true ∧
    NewCache envReadOnly runCtxCaching true = (Except.ok Cache.noCache, envReadOnly) ∧
    (∃ e, retrieveArtifactCache envHealthy "absent" = Except.error e) ∧
    (∃ e, retrieveArtifactCache
      { envHealthy with fs := fun _ => some "", readable := fun _ => false }
      "f" = Except.error e) ∧
    (∃ e, retrieveArtifactCache
      { envHealthy with fs := fun _ => some ":::" } "f" = Except.error e) :=
  ⟨rfl,
    (newCache_degrades_to_noCache envReadOnly runCtxCaching true rfl).1
      "creating file skaffold-cache" envReadOnly rfl,
    (newCache_degrades_to_noCache envReadOnly runCtxCaching true rfl).2.2.1
      envHealthy "absent" rfl,
    (newCache_degrades_to_noCache envReadOnly runCtxCaching true rfl).2.2.2.1
      { envHealthy with fs := fun _ => some "", readable := fun _ => false }
      "f" "" rfl rfl,
    (newCache_degrades_to_noCache envReadOnly runCtxCaching true rfl).2.2.2.2
      { envHealthy with fs := fun _ => some ":::" } "f" ":::" rfl (by decide)⟩

/-! ## Claim C3 -/

/-- A sample cache mapping used by concrete witnesses. -/
def sampleCache : ArtifactCache :=
  [("deadbeef", { Digest := "sha256:abc", ID := "sha256:1" }),
   ("cafe", { Digest := "", ID := "sha256:2" }),
   ("f00d", { Digest := "", ID := "" })]

/-- Claim C3: on a writable, readable path, `saveArtifactCache` succeeds and
a subsequent `retrieveArtifactCache` of the same path returns exactly the
saved mapping. -/
theorem saveRetrieve_roundTrip (env : Env) (p : String) (m : ArtifactCache)
    (hw : env.writable p = true) (hr : env.readable p = true) :
    (saveArtifactCache env p m).1 = none ∧
    retrieveArtifactCache (saveArtifactCache env p m).2 p = Except.ok m := by
  unfold saveArtifactCache WriteFile
  rw [if_pos hw]
  refine ⟨rfl, ?_⟩
  simp [retrieveArtifactCache, ReadFile, hr, parseAC_marshalAC]

/-- Claim C3 (witness): the save/load round trip at a concrete mapping. -/
theorem saveRetrieve_roundTrip_witness :
    envHealthy.writable "cachefile" = true ∧
    envHealthy.readable "cachefile" = true ∧
    retrieveArtifactCache (saveArtifactCache envHealthy "cachefile" sampleCache).2
      "cachefile" = Except.ok sampleCache :=
  ⟨rfl, rfl,
    (saveRetrieve_roundTrip envHealthy "cachefile" sampleCache rfl rfl).2⟩

/-! ## Claim C4 -/

/-- Claim C4: a non-empty explicit path is returned exactly, with the file
created empty when absent and kept as-is otherwise; an empty explicit path
resolves to the fixed default under the home configuration directory,
likewise created when absent; and no existing file is ever deleted (or even
modified) by `resolveCacheFile`. -/
theorem resolveCacheFile_spec (env : Env) (p home : String) :
    (p ≠ "" → env.writable p = true →
      (resolveCacheFile env p).1 = Except.ok p ∧
      (resolveCacheFile env p).2.fs p = some ((env.fs p).getD "")) ∧
    (env.homedir = some home →
      env.writable (filepathJoin home DefaultSkaffoldDir DefaultCacheFile) = true →
      (resolveCacheFile env "").1 =
        Except.ok (filepathJoin home DefaultSkaffoldDir DefaultCacheFile) ∧
      (resolveCacheFile env "").2.fs
          (filepathJoin home DefaultSkaffoldDir DefaultCacheFile) =
        some ((env.fs (filepathJoin home DefaultSkaffoldDir DefaultCacheFile)).getD "")) ∧
    (∀ q c, env.fs q = some c → (resolveCacheFile env p).2.fs q = some c) := by
  refine ⟨?_, ?_, ?_⟩
  · intro hp hw
    cases hfs : env.fs p with
    | none => simp [resolveCacheFile, hp, VerifyOrCreateFile, hfs, hw]
    | some c => simp [resolveCacheFile, hp, VerifyOrCreateFile, hfs]
  · intro hhome hw
    cases hfs : env.fs (filepathJoin home DefaultSkaffoldDir DefaultCacheFile) with
    | none => simp [resolveCacheFile, hhome, VerifyOrCreateFile, hfs, hw]
    | some c => simp [resolveCacheFile, hhome, VerifyOrCreateFile, hfs]
  · intro q c hq
    by_cases hp : p = ""
    · subst hp
      cases hhome : env.homedir with
      | none => simp [resolveCacheFile, hhome, hq]
      | some home' =>
        cases hfs : env.fs (filepathJoin home' DefaultSkaffoldDir DefaultCacheFile) with
        | none =>
          by_cases hw : env.writable (filepathJoin home' DefaultSkaffoldDir DefaultCacheFile) = true
          · have hqne : q ≠ filepathJoin home' DefaultSkaffoldDir DefaultCacheFile := by
              intro hcontra
              rw [hcontra, hfs] at hq
              exact Option.noConfusion hq
            simp [resolveCacheFile, hhome, VerifyOrCreateFile, hfs, hw, hqne, hq]
          · simp [resolveCacheFile, hhome, VerifyOrCreateFile, hfs,
              Bool.eq_false_iff.mpr (fun h => hw h), hq]
        | some c' => simp [resolveCacheFile, hhome, VerifyOrCreateFile, hfs, hq]
    · cases hfs : env.fs p with
      | none =>
        by_cases hw : env.writable p = true
        · have hqne : q ≠ p := by
            intro hcontra
            rw [hcontra, hfs] at hq
            exact Option.noConfusion hq
          simp [resolveCacheFile, hp, VerifyOrCreateFile, hfs, hw, hqne, hq]
        · simp [resolveCacheFile, hp, VerifyOrCreateFile, hfs,
            Bool.eq_false_iff.mpr (fun h => hw h), hq]
      | some c' => simp [resolveCacheFile, hp, VerifyOrCreateFile, hfs, hq]

/-- Claim C4 (witness): explicit-path resolution creating the file, default
resolution under home, and preservation of an existing file. -/
theorem resolveCacheFile_spec_witness :
    (resolveCacheFile envHealthy "explicit.yaml").1 = Except.ok "explicit.yaml" ∧
    (resolveCacheFile envHealthy "explicit.yaml").2.fs "explicit.yaml" = some "" ∧
    (resolveCacheFile envHealthy "").1 =
      Except.ok "/home/user/.skaffold/cache" ∧
    (resolveCacheFile { envHealthy with fs := fun _ => some "data" }
      "explicit.yaml").2.fs "other" = some "data" :=
  ⟨((resolveCacheFile_spec envHealthy "explicit.yaml" "/home/user").1
      (by decide) rfl).1,
    by
      have h := ((resolveCacheFile_spec envHealthy "explicit.yaml" "/home/user").1
        (by decide) rfl).2
      simpa [envHealthy] using h,
    ((resolveCacheFile_spec envHealthy "" "/home/user").2.1 rfl rfl).1,
    ((resolveCacheFile_spec { envHealthy with fs := fun _ => some "data" }
      "explicit.yaml" "/home/user").2.2 "other" "data" rfl)⟩

/-! ## Claim C5 -/

/-- Claim C5: with caching administratively disabled, `NewCache` returns
the no-op cache immediately, with the environment (hence the file system)
untouched — no resolution, no load; and the no-op cache always reports
every artifact as "must build" and performs no I/O, whatever the prior
state. -/
theorem newCache_disabled (env : Env) (runCtx : RunContext) (ial : Bool)
    (h : runCtx.Opts.CacheArtifacts = false) :
    NewCache env runCtx ial = (Except.ok Cache.noCache, env) ∧
    (∀ (envr : Env) (arts : List String),
      noCacheRetrieveCachedArtifacts envr arts = ((arts, []), envr)) := by
  refine ⟨?_, fun _ _ => rfl⟩
  simp [NewCache, h]

/-- Claim C5 (witness): the disabled-cache construction and the no-op
behaviour at concrete inputs. -/
theorem newCache_disabled_witness :
    runCtxDisabled.Opts.CacheArtifacts = false ∧
    NewCache envHealthy runCtxDisabled true = (Except.ok Cache.noCache, envHealthy) ∧
    noCacheRetrieveCachedArtifacts envHealthy ["a", "b"] =
      ((["a", "b"], []), envHealthy) :=
  ⟨rfl, (newCache_disabled envHealthy runCtxDisabled true rfl).1,
    (newCache_disabled envHealthy runCtxDisabled true rfl).2 envHealthy ["a", "b"]⟩

/-! ## Claim C6 -/

/-- Claim C6: with the inspect failure flag unset, a reference matching no
known tag or image id makes `ImageInspectWithRaw` fail with an error
satisfying the `NotFound` predicate; with the flag set, it fails with an
ordinary error that does not satisfy `NotFound`. -/
theorem imageInspect_distinguishes (f : FakeAPIClient) (ref : String) :
    (f.ErrImageInspect = false →
      (∀ p ∈ f.TagToImageID, p.1 ≠ ref ∧ p.2 ≠ ref) →
      ∃ e, f.ImageInspectWithRaw ref = Except.error e ∧ e.NotFound = true) ∧
    (f.ErrImageInspect = true →
      ∃ e, f.ImageInspectWithRaw ref = Except.error e ∧ e.NotFound = false) := by
  constructor
  · intro hflag hnone
    refine ⟨DockerError.notFoundError, ?_, rfl⟩
    simp [FakeAPIClient.ImageInspectWithRaw, hflag,
      findInspect_none f.TagToImageID ref hnone]
  · intro hflag
    exact ⟨DockerError.errorf "",
      by simp [FakeAPIClient.ImageInspectWithRaw, hflag], rfl⟩

/-- Claim C6 (witness): the not-found outcome on a client that does not know
the reference, and the ordinary-error outcome under the forced flag. -/
theorem imageInspect_distinguishes_witness :
    fakeOneImage.ErrImageInspect = false ∧
    (∀ p ∈ fakeOneImage.TagToImageID, p.1 ≠ "unknown" ∧ p.2 ≠ "unknown") ∧
    (∃ e, fakeOneImage.ImageInspectWithRaw "unknown" = Except.error e ∧
      e.NotFound = true) ∧
    (∃ e, (setErrFlag DockerOp.inspect fakeOneImage).ImageInspectWithRaw "img:1" =
      Except.error e ∧ e.NotFound = false) :=
  ⟨rfl, by decide,
    (imageInspect_distinguishes fakeOneImage "unknown").1 rfl (by decide),
    (imageInspect_distinguishes (setErrFlag DockerOp.inspect fakeOneImage)
      "img:1").2 rfl⟩

/-! ## Claim C7 -/

/-- Claim C7: with the tag failure flag unset, `ImageTag` fails exactly when
the source reference is unknown to the daemon; on success the target
reference is bound to the source's image id, so both references resolve to
the same image id afterwards. -/
theorem imageTag_spec (f : FakeAPIClient) (src tgt : String)
    (hflag : f.ErrImageTag = false) :
    (lookupTag f.TagToImageID src = none →
      ∃ e, f.ImageTag src tgt = Except.error e) ∧
    (∀ id, lookupTag f.TagToImageID src = some id →
      ∃ f', f.ImageTag src tgt = Except.ok f' ∧
        lookupTag f'.TagToImageID tgt = some id ∧
        lookupTag f'.TagToImageID tgt = lookupTag f'.TagToImageID src) := by
  constructor
  · intro hnone
    exact ⟨DockerError.errorf ("image " ++ src ++ " not found."),
      by simp [FakeAPIClient.ImageTag, hflag, hnone]⟩
  · intro id hsome
    refine ⟨{ f with TagToImageID := insertTag f.TagToImageID tgt id,
                     Tagged := f.Tagged ++ [tgt] },
      by simp [FakeAPIClient.ImageTag, hflag, hsome], ?_, ?_⟩
    · exact lookupTag_insertTag_self f.TagToImageID tgt id
    · by_cases hst : src = tgt
      · rw [hst]
      · rw [lookupTag_insertTag_self f.TagToImageID tgt id,
          lookupTag_insertTag_ne f.TagToImageID tgt id src hst, hsome]

/-- Claim C7 (witness): tagging fails on an unknown source and, from a known
source, binds the target to the source's image id. -/
theorem imageTag_spec_witness :
    fakeOneImage.ErrImageTag = false ∧
    (∃ e, fakeOneImage.ImageTag "unknown" "t" = Except.error e) ∧
    (∃ f', fakeOneImage.ImageTag "img:1" "t" = Except.ok f' ∧
      lookupTag f'.TagToImageID "t" = some "sha256:1" ∧
      lookupTag f'.TagToImageID "t" = lookupTag f'.TagToImageID "img:1") :=
  ⟨rfl,
    (imageTag_spec fakeOneImage "unknown" "t" rfl).1 rfl,
    (imageTag_spec fakeOneImage "img:1" "t" rfl).2 "sha256:1" rfl⟩

/-! ## Claim C8 -/

/-- Claim C8: each of build, inspect, tag, push and pull has its own failure
flag; on a state where all five flags are clear and the reference is known,
setting exactly one flag makes exactly that operation fail while each of the
other four still succeeds. -/
theorem errFlags_independent (f : FakeAPIClient) (options : ImageBuildOptions)
    (ref target id : String)
    (hb : f.ErrImageBuild = false) (hi : f.ErrImageInspect = false)
    (ht : f.ErrImageTag = false) (hp : f.ErrImagePush = false)
    (hl : f.ErrImagePull = false)
    (href : lookupTag f.TagToImageID ref = some id) :
    ∀ o o' : DockerOp,
      opSucceeds o' (setErrFlag o f) options ref target = true ↔ o' ≠ o := by
  intro o o'
  obtain ⟨j, hj⟩ := findInspect_of_lookupTag f.TagToImageID ref id href
  cases o <;> cases o' <;>
    simp [opSucceeds, setErrFlag, exceptOk, FakeAPIClient.ImageBuild,
      FakeAPIClient.ImageInspectWithRaw, FakeAPIClient.ImageTag,
      FakeAPIClient.ImagePush, FakeAPIClient.ImagePull,
      hb, hi, ht, hp, hl, href, hj]

/-- Claim C8 (witness): at a concrete one-image client, forcing the build
flag fails the build but leaves inspect succeeding, and forcing each flag
fails its own operation. -/
theorem errFlags_independent_witness :
    fakeOneImage.ErrImageBuild = false ∧
    lookupTag fakeOneImage.TagToImageID "img:1" = some "sha256:1" ∧
    (opSucceeds DockerOp.inspect (setErrFlag DockerOp.build fakeOneImage)
      { Tags := ["t"] } "img:1" "tgt" = true ↔ DockerOp.inspect ≠ DockerOp.build) ∧
    (opSucceeds DockerOp.build (setErrFlag DockerOp.build fakeOneImage)
      { Tags := ["t"] } "img:1" "tgt" = true ↔ DockerOp.build ≠ DockerOp.build) :=
  ⟨rfl, rfl,
    errFlags_independent fakeOneImage { Tags := ["t"] } "img:1" "tgt" "sha256:1"
      rfl rfl rfl rfl rfl rfl DockerOp.build DockerOp.inspect,
    errFlags_independent fakeOneImage { Tags := ["t"] } "img:1" "tgt" "sha256:1"
      rfl rfl rfl rfl rfl rfl DockerOp.build DockerOp.build⟩

/-! ## Claim C9 -/

/-- Claim C9: saving replaces the file's entire contents with the
serialization of the mapping alone (independent of any prior contents, so
nothing is appended); the serialized text parses back as exactly the
top-level key→details mapping; and an entry whose digest (resp. id) field is
empty contains no digest (resp. id) field line — `omitempty`. -/
theorem saveArtifactCache_format (env : Env) (p : String) (m : ArtifactCache)
    (hw : env.writable p = true) :
    (saveArtifactCache env p m).2.fs p = some (marshalAC m) ∧
    (∀ env₂ : Env, env₂.writable p = true →
      (saveArtifactCache env₂ p m).2.fs p = (saveArtifactCache env p m).2.fs p) ∧
    parseAC (marshalAC m) = some m ∧
    (∀ (k : String) (d : ImageDetails) (l : List Char) (v : String),
      d.Digest = "" → l ∈ entryLines k d → parseFieldLine l ≠ some (true, v)) ∧
    (∀ (k : String) (d : ImageDetails) (l : List Char) (v : String),
      d.ID = "" → l ∈ entryLines k d → parseFieldLine l ≠ some (false, v)) := by
  have hkey : ∀ (s : String) (r : List Char),
      parseFieldLine (quoteL s.data ++ r) = none := by
    intro s r
    have : quoteL s.data ++ r = '\"' :: (escapeL s.data ++ ['\"'] ++ r) := by
      simp [quoteL]
    rw [this, parseFieldLine_keyline]
  refine ⟨?_, ?_, parseAC_marshalAC m, ?_, ?_⟩
  · unfold saveArtifactCache WriteFile
    rw [if_pos hw]
    simp
  · intro env₂ hw₂
    unfold saveArtifactCache WriteFile
    rw [if_pos hw, if_pos hw₂]
    simp
  · intro k d l v hdg hl
    by_cases hid : d.ID = ""
    · rw [entryLines, if_pos ⟨hdg, hid⟩] at hl
      rcases List.mem_singleton.mp hl with rfl
      rw [show quoteL k.data ++ ':' :: emptyObjSuffix =
          quoteL k.data ++ (':' :: emptyObjSuffix) from rfl, hkey]
      exact fun h => Option.noConfusion h
    · rw [entryLines, if_neg (fun hc => hid hc.2), if_pos hdg,
        List.nil_append, if_neg hid] at hl
      rcases List.mem_cons.mp hl with rfl | hl
      · rw [hkey]
        exact fun h => Option.noConfusion h
      · rcases List.mem_singleton.mp hl with rfl
        rw [parseFieldLine_id]
        simp
  · intro k d l v hid hl
    by_cases hdg : d.Digest = ""
    · rw [entryLines, if_pos ⟨hdg, hid⟩] at hl
      rcases List.mem_singleton.mp hl with rfl
      rw [show quoteL k.data ++ ':' :: emptyObjSuffix =
          quoteL k.data ++ (':' :: emptyObjSuffix) from rfl, hkey]
      exact fun h => Option.noConfusion h
    · rw [entryLines, if_neg (fun hc => hdg hc.1), if_neg hdg,
        if_pos hid, List.append_nil] at hl
      rcases List.mem_cons.mp hl with rfl | hl
      · rw [hkey]
        exact fun h => Option.noConfusion h
      · rcases List.mem_singleton.mp hl with rfl
        rw [parseFieldLine_digest]
        simp

/-- Claim C9 (witness): the persisted contents at a concrete mapping, and
the overwrite of a concrete prior file. -/
theorem saveArtifactCache_format_witness :
    envHealthy.writable "f" = true ∧
    (saveArtifactCache envHealthy "f" sampleCache).2.fs "f" =
      some (marshalAC sampleCache) ∧
    (saveArtifactCache { envHealthy with fs := fun _ => some "old stale data" }
      "f" sampleCache).2.fs "f" =
      (saveArtifactCache envHealthy "f" sampleCache).2.fs "f" :=
  ⟨rfl, (saveArtifactCache_format envHealthy "f" sampleCache rfl).1,
    (saveArtifactCache_format envHealthy "f" sampleCache rfl).2.1
      { envHealthy with fs := fun _ => some "old stale data" } rfl⟩

/-! ## Claim C10 -/

/-- Claim C10: an existing empty cache file loads as the empty mapping with
no error, and a fresh session (file absent, then created empty by
resolution) constructs the real cache around the empty mapping rather than
the no-op cache. -/
theorem retrieve_emptyFile (env : Env) (p : String) :
    (env.fs p = some "" → env.readable p = true →
      retrieveArtifactCache env p = Except.ok ([] : ArtifactCache)) ∧
    (∀ runCtx : RunContext, runCtx.Opts.CacheArtifacts = true →
      runCtx.Opts.CacheFile = p → p ≠ "" →
      env.fs p = none → env.writable p = true → env.readable p = true →
      env.dockerClient = Except.ok () →
      ∀ ial, (NewCache env runCtx ial).1 =
        Except.ok (Cache.cache [] (some ()) runCtx.InsecureRegistries p ial)) := by
  have hparse : parseAC "" = some [] := rfl
  constructor
  · intro hfs hr
    simp [retrieveArtifactCache, ReadFile, hfs, hr, hparse]
  · intro runCtx hca hcf hp hfs hw hr hdc ial
    simp [NewCache, hca, resolveCacheFile, hcf, hp, VerifyOrCreateFile, hfs, hw,
      retrieveArtifactCache, ReadFile, hr, hdc, hparse]

/-- Claim C10 (witness): loading a concrete empty file, and a fresh-session
construction that yields the real cache with the empty mapping. -/
theorem retrieve_emptyFile_witness :
    retrieveArtifactCache { envHealthy with fs := fun _ => some "" } "f" =
      Except.ok ([] : ArtifactCache) ∧
    (NewCache envHealthy runCtxCaching true).1 =
      Except.ok (Cache.cache [] (some ()) [] "skaffold-cache" true) :=
  ⟨(retrieve_emptyFile { envHealthy with fs := fun _ => some "" } "f").1 rfl rfl,
    (retrieve_emptyFile envHealthy "skaffold-cache").2 runCtxCaching rfl rfl
      (by decide) rfl rfl rfl rfl true⟩

end Skaffold
